import Mathlib

/-!
Shallow embedding of `meditation_generator.py` (repository SushilDixith/Med).

Audio samples are modelled as real numbers; numpy arrays become lists
(2-D arrays become lists of rows).  Durations are rationals so that
Python's `int(...)` truncation stays computable.  The external
collaborators — the pyroomacoustics room simulation, the numpy random
stream and the gTTS + pydub text-to-speech decoding — are parameters of
the embedding, gathered in an `Env` structure.  Fallible Python code
(exceptions) is embedded with `Except String`.
-/

namespace Med

/-- Python `int(q)` for a rational: truncation toward zero. -/
def pyInt (q : ℚ) : ℤ := if 0 ≤ q then ⌊q⌋ else ⌈q⌉

/-- Python `int(x)` for a real: truncation toward zero. -/
noncomputable def pyIntR (x : ℝ) : ℤ := if 0 ≤ x then ⌊x⌋ else ⌈x⌉

/-- `np.linspace(a, b, n)`: `n` evenly spaced points, endpoints included. -/
noncomputable def linspace (a b : ℝ) (n : ℕ) : List ℝ :=
  if n = 0 then []
  else if n = 1 then [a]
  else (List.range n).map fun (k : ℕ) => a + (b - a) * (k : ℝ) / ((n : ℝ) - 1)

/-- `np.max(np.abs(xs))` over a 1-D array.  numpy raises on an empty
array; every use in the source is on a nonempty buffer, and on a
nonempty buffer the fold below equals the true maximum because all
`|x|` are nonnegative. -/
def npMaxAbs (xs : List ℝ) : ℝ := (xs.map fun x => |x|).foldr max 0

/-- `np.max(np.abs(m))` over a 2-D array: global maximum. -/
def npMaxAbs2D (m : List (List ℝ)) : ℝ := npMaxAbs m.flatten

/-- `np.column_stack((a, b))`. -/
def columnStack (a b : List ℝ) : List (List ℝ) :=
  List.zipWith (fun x y => [x, y]) a b

/-- `Except`-valued `mapM`, written by structural recursion so that
invariants can be proved by induction. -/
def exceptMapM {α β : Type} (f : α → Except String β) :
    List α → Except String (List β)
  | [] => .ok []
  | a :: tl =>
    match f a with
    | .error e => .error e
    | .ok b =>
      match exceptMapM f tl with
      | .error e => .error e
      | .ok rest => .ok (b :: rest)

/-- Whether an `Except` value is a success. -/
def exOk {α : Type} : Except String α → Bool
  | .ok _ => true
  | .error _ => false

/-- Elementwise numpy addition of two rows; numpy broadcasts a length-1
operand and raises on any other shape mismatch. -/
def addRow (a b : List ℝ) : Except String (List ℝ) :=
  if a.length = b.length then .ok (List.zipWith (· + ·) a b)
  else if b.length = 1 then .ok (a.map fun x => x + b.headD 0)
  else .error "operands could not be broadcast together"

/-- Elementwise numpy addition of two 2-D arrays (`x += y`). -/
def add2D (a b : List (List ℝ)) : Except String (List (List ℝ)) :=
  if a.length = b.length then
    exceptMapM (fun rr => addRow rr.1 rr.2) (a.zip b)
  else .error "operands could not be broadcast together"

/-- The generator is always constructed with the default
`sample_rate=44100` (both in the source defaults and in
`generate_session.py`). -/
def sample_rate : ℕ := 44100

/-- `int(self.sample_rate * duration)`, the sample count the source
computes at each synthesis site. -/
def numSamples (duration : ℚ) : ℤ := pyInt ((sample_rate : ℚ) * duration)

/-! ## Spatial renderer (`SpatialAudioProcessor`) -/

/-- A movement descriptor: the Python dict with keys `pattern` and
`speed`, read with `dict.get` defaults. -/
structure Movement where
  pattern : Option String
  speed : Option ℝ

/-- Mono or two-dimensional numpy input to `create_spatial_effect`. -/
inductive NDArray where
  | one (xs : List ℝ)
  | two (m : List (List ℝ))

/-- scipy rotation about the x axis. -/
noncomputable def rotX (a : ℝ) : List ℝ → List ℝ
  | [x, y, z] => [x, Real.cos a * y - Real.sin a * z,
                  Real.sin a * y + Real.cos a * z]
  | v => v

/-- scipy rotation about the y axis. -/
noncomputable def rotY (a : ℝ) : List ℝ → List ℝ
  | [x, y, z] => [Real.cos a * x + Real.sin a * z, y,
                  -Real.sin a * x + Real.cos a * z]
  | v => v

/-- scipy rotation about the z axis. -/
noncomputable def rotZ (a : ℝ) : List ℝ → List ℝ
  | [x, y, z] => [Real.cos a * x - Real.sin a * y,
                  Real.sin a * x + Real.cos a * y, z]
  | v => v

/-- `Rotation.from_euler('xyz', [ax, ay, az]).apply(v)`: extrinsic
x-then-y-then-z rotation.  scipy accepts only vectors of shape `(3,)`
(or stacks of such); any other 1-D length raises a `ValueError`. -/
noncomputable def rotApply (ax ay az : ℝ) (v : List ℝ) :
    Except String (List ℝ) :=
  if v.length = 3 then .ok (rotZ az (rotY ay (rotX ax v)))
  else .error "Expected input of shape 3 or P x 3"

/-- `SpatialAudioProcessor._apply_movement`.  Note that the caller
passes the simulation output *before* transposing, so `audio` here is
the mic-major `(n_mics, n_samples)` array and `len(audio)` counts
microphones, not samples. -/
noncomputable def apply_movement (audio : List (List ℝ)) (movement : Movement) :
    Except String (List (List ℝ)) :=
  let pattern := movement.pattern.getD "circular"
  let speed := movement.speed.getD 0.5
  let samples := audio.length
  let t := linspace 0 ((samples : ℝ) / (sample_rate : ℝ)) samples
  -- trajectory value for loop index i; an unknown pattern leaves the
  -- Python locals x, y, z unbound, raising a NameError at first use
  let traj : ℕ → Except String (ℝ × ℝ × ℝ) := fun i =>
    let ti := t.getD i 0
    if pattern = "circular" then
      .ok (Real.cos (2 * Real.pi * speed * ti),
           Real.sin (2 * Real.pi * speed * ti), 0)
    else if pattern = "spiral" then
      .ok (ti * Real.cos (2 * Real.pi * speed * ti),
           ti * Real.sin (2 * Real.pi * speed * ti), ti)
    else .error "name x is not defined"
  exceptMapM (fun i =>
    match traj i with
    | .error e => .error e
    | .ok xyz => rotApply xyz.1 xyz.2.1 xyz.2.2 (audio.getD i []))
    (List.range t.length)

/-- `SpatialAudioProcessor.create_spatial_effect`.  The fresh ShoeBox
room, source placement, microphone array, `compute_rir` and `simulate`
are the external pyroomacoustics collaborator, abstracted as `sim`,
which maps a source position and the channel-0 signal to the mic-major
`(n_mics, n_samples)` simulation output. -/
noncomputable def create_spatial_effect
    (sim : ℝ × ℝ × ℝ → List ℝ → List (List ℝ))
    (audio : NDArray) (position : ℝ × ℝ × ℝ) (movement : Option Movement) :
    Except String (List (List ℝ)) :=
  -- np.stack([audio, audio]).T when the input is mono
  let audio2 : List (List ℝ) :=
    match audio with
    | .one xs => xs.map fun v => [v, v]
    | .two m => m
  -- room.add_source(position, signal=audio[:, 0]); simulate
  let output := sim position (audio2.map fun r => r.headD 0)
  match movement with
  | some mov =>
    match apply_movement output mov with
    | .error e => .error e
    | .ok moved => .ok moved.transpose
  | none => .ok output.transpose

/-! ## Tone/pattern synthesizer and composer (`AdvancedAudioGenerator`) -/

/-- Process-level state for the temporary-file staging used by the
voice synthesizer: the set of temporary files currently on disk. -/
structure FS where
  tempFiles : List String

/-- External collaborators of the generator, plus the file-system
state threaded into the voice synthesizer:
* `sim`  — pyroomacoustics room construction + `simulate`;
* `rand` — the `np.random.rand` draw stream, indexed by draw number;
* `tts`  — gTTS synthesis followed by pydub mp3 decoding, yielding the
  flat int16 PCM samples of `get_array_of_samples` (or a hard failure
  of the external engine);
* `fs`, `tmpName` — the temp-file state and the name the next
  `NamedTemporaryFile` call picks. -/
structure Env where
  sim : ℝ × ℝ × ℝ → List ℝ → List (List ℝ)
  rand : ℕ → ℝ
  tts : String → Except String (List ℤ)
  fs : FS
  tmpName : String

/-- The `brainwave_states` dictionary. -/
def brainwave_states (s : String) : Option (ℝ × ℝ) :=
  if s = "gamma" then some (30, 50)
  else if s = "beta" then some (14, 30)
  else if s = "alpha" then some (8, 14)
  else if s = "theta" then some (4, 8)
  else if s = "delta" then some (0.5, 4)
  else none

/-- One entry of the `special_sounds` preset dictionary. -/
structure SoundParams where
  frequencies : List ℝ
  base_freq : ℝ
  harmonics : List ℝ
  duration : ℚ
  position : ℝ × ℝ × ℝ

/-- The `special_sounds` preset dictionary. -/
def special_sounds (s : String) : Option SoundParams :=
  if s = "crystal_bowls" then
    some ⟨[396, 417, 528, 639, 741, 852], 0, [], 3, (2.5, 2.5, 1.5)⟩
  else if s = "om_chant" then
    some ⟨[], 136.1, [2, 3, 4], 4, (2.5, 0, 1.5)⟩
  else if s = "wind_chimes" then
    some ⟨[1318.51, 1174.66, 880, 987.77, 783.99], 0, [], 2, (0, 2.5, 2)⟩
  else none

/-- Python `duration or sound_params['duration']`: `None` and `0` are
falsy and select the preset default. -/
def resolveDuration (d : Option ℚ) (preset : ℚ) : ℚ :=
  match d with
  | some x => if x = 0 then preset else x
  | none => preset

/-- `audio[idx:idx+len(chime)] += chime`. -/
def addAt (audio : List ℝ) (idx : ℕ) (chime : List ℝ) : List ℝ :=
  audio.mapIdx fun i a =>
    if idx ≤ i ∧ i < idx + chime.length then a + chime.getD (i - idx) 0 else a

/-- The `wind_chimes` branch of `generate_special_sound`: for each of
the five frequencies, five random onset times; each onset whose full
one-second window fits adds an exponentially decaying sine burst.
Draw `5*fi + si` of the stream is the `si`-th start time of the
`fi`-th frequency; `np.random.rand` draws lie in `[0, 1)`, so the
truncated start index is nonnegative. -/
noncomputable def windChimes (rand : ℕ → ℝ) (freqs : List ℝ) (t : List ℝ)
    (d : ℝ) : List ℝ :=
  (freqs.enum).foldl (fun audio p =>
    (List.range 5).foldl (fun audio si =>
      let start := rand (5 * p.1 + si) * d
      let idx := pyIntR (start * (sample_rate : ℝ))
      if idx + 44100 < (audio.length : ℤ) then
        addAt audio idx.toNat
          ((t.take 44100).map fun ti =>
            Real.sin (2 * Real.pi * p.2 * ti) * Real.exp (-ti * 5))
      else audio) audio)
    (t.map fun _ => (0 : ℝ))

/-- The synthesis body of `generate_special_sound`, before
normalization, for a preset `p` and resolved duration `d` (with the
sample grid `t` already built). -/
noncomputable def special_sound_body (rand : ℕ → ℝ) (sound_type : String)
    (p : SoundParams) (t : List ℝ) (d : ℝ) : List ℝ :=
  if sound_type = "crystal_bowls" then
    p.frequencies.foldl (fun acc freq =>
      List.zipWith (· + ·)
        (List.zipWith (· + ·)
          (List.zipWith (· + ·) acc
            (t.map fun ti => Real.sin (2 * Real.pi * freq * ti) * 0.5))
          (t.map fun ti => Real.sin (2 * Real.pi * freq * 2 * ti) * 0.25))
        (t.map fun ti => Real.sin (2 * Real.pi * freq * 3 * ti) * 0.125))
      (t.map fun _ => (0 : ℝ))
  else if sound_type = "om_chant" then
    p.harmonics.foldl (fun acc h =>
      List.zipWith (· + ·) acc
        (t.map fun ti =>
          Real.sin (2 * Real.pi * p.base_freq * h * ti) * (1 / h)))
      (t.map fun ti => Real.sin (2 * Real.pi * p.base_freq * ti))
  else windChimes rand p.frequencies t d

/-- `generate_special_sound` up to and including the sample grid and
synthesis, before the normalization line.  An unknown sound type
raises `ValueError(f"Unknown sound type: {sound_type}")`; a negative
sample count makes `np.linspace` raise. -/
noncomputable def special_sound_raw (rand : ℕ → ℝ) (sound_type : String)
    (dur : Option ℚ) : Except String (List ℝ) :=
  match special_sounds sound_type with
  | none => .error ("Unknown sound type: " ++ sound_type)
  | some p =>
    let d := resolveDuration dur p.duration
    if numSamples d < 0 then .error "number of samples must be non-negative"
    else
      .ok (special_sound_body rand sound_type p
        (linspace 0 (d : ℝ) (numSamples d).toNat) (d : ℝ))

/-- The synthesized special sound after the normalization line
`audio = audio / np.max(np.abs(audio))` — the waveform immediately
before spatial rendering. -/
noncomputable def special_sound_normalized (rand : ℕ → ℝ) (sound_type : String)
    (dur : Option ℚ) : Except String (List ℝ) :=
  (special_sound_raw rand sound_type dur).map fun a =>
    a.map fun x => x / npMaxAbs a

/-- `AdvancedAudioGenerator.generate_special_sound`. -/
noncomputable def generate_special_sound (env : Env) (sound_type : String)
    (dur : Option ℚ) : Except String (List (List ℝ)) :=
  match special_sounds sound_type with
  | none => .error ("Unknown sound type: " ++ sound_type)
  | some p =>
    match special_sound_normalized env.rand sound_type dur with
    | .error e => .error e
    | .ok audio =>
      create_spatial_effect env.sim (.one audio) p.position
        (some ⟨some "circular", some 0.2⟩)

/-- The length-alignment idiom used twice in the source: `np.pad` with
zero rows of the operand's own width when it is shorter than the
target, `[:target]` truncation when it is longer. -/
def padTruncate (target : ℕ) (sound : List (List ℝ)) : List (List ℝ) :=
  if sound.length < target then
    sound ++ List.replicate (target - sound.length)
      (List.replicate (sound.headD []).length (0 : ℝ))
  else sound.take target

/-- The accumulation loop of `create_atmos_mix`; `count` is the fixed
`len(sounds)` of the whole call. -/
noncomputable def atmosLoop (env : Env) (duration : ℚ) (count : ℕ) :
    List String → List (List ℝ) → Except String (List (List ℝ))
  | [], output => .ok output
  | st :: rest, output =>
    match generate_special_sound env st (some duration) with
    | .error e => .error e
    | .ok sound =>
      match add2D output
          ((padTruncate output.length sound).map fun r =>
            r.map fun x => x * (1 / (count : ℝ))) with
      | .error e => .error e
      | .ok output2 => atmosLoop env duration count rest output2

/-- `AdvancedAudioGenerator.create_atmos_mix`.  `np.zeros` raises when
`int(sample_rate * duration)` is negative. -/
noncomputable def create_atmos_mix (env : Env) (sounds : List String)
    (duration : ℚ) : Except String (List (List ℝ)) :=
  if numSamples duration < 0 then .error "negative dimensions are not allowed"
  else atmosLoop env duration sounds.length sounds
    (List.replicate (numSamples duration).toNat ([0, 0] : List ℝ))

/-- `AdvancedAudioGenerator.generate_voice_guidance`.  The gTTS call
and the pydub mp3 decode are the external `tts` collaborator.  The
staging file is opened with `NamedTemporaryFile(suffix='.mp3',
delete=False)`; the `with` block closes it on every exit path but —
because of `delete=False` and the absence of any `os.unlink` — never
removes it, so the name stays in the file-system state whether or not
the external engine succeeds.  `get_array_of_samples` yields a flat
1-D array, so the mono branch always fires and duplicates to stereo. -/
noncomputable def generate_voice_guidance (tts : String → Except String (List ℤ))
    (script : String) (fs : FS) (tmpName : String) :
    Except String (List (List ℝ)) × FS :=
  let fs2 : FS := ⟨tmpName :: fs.tempFiles⟩
  match tts script with
  | .error e => (.error e, fs2)
  | .ok pcm =>
    -- samples.astype(np.float32) / np.iinfo(np.int16).max
    let samples := pcm.map fun (x : ℤ) => (x : ℝ) / 32767
    (.ok (samples.map fun v => [v, v]), fs2)

/-- Python truthiness of the `special_sounds` argument: `None` and the
empty list are both falsy. -/
def truthy (ss : Option (List String)) : Bool :=
  match ss with
  | some l => !l.isEmpty
  | none => false

/-- Python truthiness of the `custom_script` argument: `None` and the
empty string are both falsy. -/
def truthyStr (cs : Option String) : Bool :=
  match cs with
  | some s => !(s = "")
  | none => false

/-- `create_guided_meditation` up to (but excluding) the final
normalization line: base bed selection, optional voice overlay,
length alignment and the `voice + base*0.3` blend. -/
noncomputable def mixed_audio (env : Env) (duration : ℚ) (target_state : String)
    (ss : Option (List String)) (cs : Option String) :
    Except String (List (List ℝ)) :=
  let base :=
    if truthy ss then create_atmos_mix env (ss.getD []) duration
    else
      -- t = np.linspace(...) runs (and raises on a negative sample
      -- count) before the brainwave_states[target_state] lookup
      if numSamples duration < 0 then
        .error "number of samples must be non-negative"
      else
        match brainwave_states target_state with
        | none => .error ("KeyError: " ++ target_state)
        | some band =>
          let t := linspace 0 (duration : ℝ) (numSamples duration).toNat
          -- freq = np.mean(self.brainwave_states[target_state])
          let freq := (band.1 + band.2) / 2
          let tone := t.map fun ti => Real.sin (2 * Real.pi * freq * ti)
          .ok (columnStack tone tone)
  match base with
  | .error e => .error e
  | .ok base_audio =>
    if truthyStr cs then
      match (generate_voice_guidance env.tts (cs.getD "") env.fs env.tmpName).1 with
      | .error e => .error e
      | .ok voice0 =>
        match create_spatial_effect env.sim (.two voice0) (2.5, 2.5, 1.7) none with
        | .error e => .error e
        | .ok voice1 =>
          add2D (padTruncate base_audio.length voice1)
            (base_audio.map fun r => r.map fun x => x * 0.3)
    else .ok base_audio

/-- The final normalization line
`mixed_audio = mixed_audio / np.max(np.abs(mixed_audio))`. -/
noncomputable def finalNormalize (m : List (List ℝ)) : List (List ℝ) :=
  m.map fun r => r.map fun x => x / npMaxAbs2D m

/-- In IEEE-754 arithmetic the final division yields finite samples
exactly when the divisor `np.max(np.abs(mixed_audio))` is nonzero
(an all-silent buffer gives `0/0 = NaN`).  The real-valued embedding
has no non-finite values, so finiteness is tracked by this predicate
on the buffer entering the division. -/
def normalizationFinite (m : List (List ℝ)) : Prop := npMaxAbs2D m ≠ 0

/-- `AdvancedAudioGenerator.create_guided_meditation`. -/
noncomputable def create_guided_meditation (env : Env) (duration : ℚ)
    (target_state : String) (ss : Option (List String)) (cs : Option String) :
    Except String (List (List ℝ)) :=
  (mixed_audio env duration target_state ss cs).map finalNormalize

/-! ## Concrete instantiations used in the closed theorems -/

/-- Room-simulation stub: 2 microphone channels of 5 samples each. -/
noncomputable def sim25 : ℝ × ℝ × ℝ → List ℝ → List (List ℝ) :=
  fun _ _ => [[0, 0, 0, 0, 0], [0, 0, 0, 0, 0]]

/-- Room-simulation stub: 2 microphone channels of 3 samples each. -/
noncomputable def sim23 : ℝ × ℝ × ℝ → List ℝ → List (List ℝ) :=
  fun _ _ => [[0, 0, 0], [0, 0, 0]]

/-- Random stream stub: every draw is 0. -/
noncomputable def rand0 : ℕ → ℝ := fun _ => 0

/-- TTS stub that decodes to two int16 samples. -/
def ttsOkStub : String → Except String (List ℤ) := fun _ => .ok [0, 1000]

/-- TTS stub whose external engine fails. -/
def ttsFailStub : String → Except String (List ℤ) :=
  fun _ => .error "gTTS connection failure"

/-- Environment built on the 3-sample room stub. -/
noncomputable def env23 : Env := ⟨sim23, rand0, ttsOkStub, ⟨[]⟩, "stage.mp3"⟩

/-- The spatial rendering produced by `sim23` under the fixed circular
movement; `sim23` ignores the source signal and the position, so the
result is the same for every input. -/
noncomputable def spatialStub : Except String (List (List ℝ)) :=
  create_spatial_effect sim23 (.one []) (0, 0, 0)
    (some ⟨some "circular", some 0.2⟩)

/-- The fallback alpha tone over two sample frames (duration
`2/44100` seconds), used to witness the normalization claims. -/
noncomputable def c7tone : List ℝ :=
  (linspace 0 ((2 / 44100 : ℚ) : ℝ) 2).map fun ti =>
    Real.sin (2 * Real.pi * (((8 : ℝ) + 14) / 2) * ti)

/-- The fallback tone of the `duration=10, target_state='alpha'`
scenario: a pure sine at 11 Hz (the alpha band midpoint) over the
441000-point sample grid. -/
noncomputable def alphaTone : List ℝ :=
  (linspace 0 10 441000).map fun ti => Real.sin (2 * Real.pi * 11 * ti)

/-- The expected output of the alpha scenario: the tone duplicated to
stereo and peak-normalized. -/
noncomputable def alphaOut : List (List ℝ) :=
  alphaTone.map fun v => [v / npMaxAbs alphaTone, v / npMaxAbs alphaTone]

/-- TTS stub decoding to the minimum int16 sample. -/
def ttsMinStub : String → Except String (List ℤ) := fun _ => .ok [-32768]

/-- TTS stub decoding to the minimum int16 sample and an ordinary one. -/
def ttsRangeStub : String → Except String (List ℤ) := fun _ => .ok [-32768, 100]

/-! ## Helper lemmas -/

theorem npMaxAbs_nil : npMaxAbs [] = 0 := rfl

theorem npMaxAbs_cons (x : ℝ) (xs : List ℝ) :
    npMaxAbs (x :: xs) = max |x| (npMaxAbs xs) := rfl

theorem npMaxAbs_nonneg (xs : List ℝ) : 0 ≤ npMaxAbs xs := by
  induction xs with
  | nil => exact le_refl 0
  | cons a tl ih => exact le_trans ih (le_max_right _ _)

theorem le_npMaxAbs {xs : List ℝ} {x : ℝ} (hx : x ∈ xs) :
    |x| ≤ npMaxAbs xs := by
  induction xs with
  | nil => cases hx
  | cons a tl ih =>
    rcases List.mem_cons.1 hx with h | h
    · rw [h, npMaxAbs_cons]; exact le_max_left _ _
    · exact le_trans (ih h) (by rw [npMaxAbs_cons]; exact le_max_right _ _)

theorem npMaxAbs_le {xs : List ℝ} {c : ℝ} (hc : 0 ≤ c)
    (h : ∀ x ∈ xs, |x| ≤ c) : npMaxAbs xs ≤ c := by
  induction xs with
  | nil => exact hc
  | cons a tl ih =>
    rw [npMaxAbs_cons]
    exact max_le (h a (List.mem_cons_self a tl))
      (ih fun x hx => h x (List.mem_cons_of_mem a hx))

theorem npMaxAbs_attained {xs : List ℝ} (h : xs ≠ []) :
    ∃ x ∈ xs, |x| = npMaxAbs xs := by
  induction xs with
  | nil => exact absurd rfl h
  | cons a tl ih =>
    cases tl with
    | nil =>
      refine ⟨a, List.mem_cons_self a [], ?_⟩
      rw [npMaxAbs_cons, npMaxAbs_nil, max_eq_left (abs_nonneg a)]
    | cons b tl2 =>
      rcases ih (by simp) with ⟨y, hy, hmax⟩
      rcases le_total |a| (npMaxAbs (b :: tl2)) with hle | hle
      · refine ⟨y, List.mem_cons_of_mem a hy, ?_⟩
        rw [npMaxAbs_cons a (b :: tl2), max_eq_right hle]
        exact hmax
      · exact ⟨a, List.mem_cons_self a _,
          by rw [npMaxAbs_cons a (b :: tl2), max_eq_left hle]⟩

theorem npMaxAbs_eq_zero {xs : List ℝ} (h : ∀ x ∈ xs, x = 0) :
    npMaxAbs xs = 0 := by
  refine le_antisymm (npMaxAbs_le (le_refl 0) fun x hx => ?_) (npMaxAbs_nonneg xs)
  rw [h x hx, abs_zero]

theorem npMaxAbs_map_div {xs : List ℝ} (h : 0 < npMaxAbs xs) :
    npMaxAbs (xs.map fun x => x / npMaxAbs xs) = 1 := by
  have hne : xs ≠ [] := by
    intro he; rw [he] at h; exact lt_irrefl 0 h
  have hub : npMaxAbs (xs.map fun x => x / npMaxAbs xs) ≤ 1 := by
    refine npMaxAbs_le zero_le_one fun y hy => ?_
    rcases List.mem_map.1 hy with ⟨x, hx, rfl⟩
    rw [abs_div, abs_of_pos h]
    exact div_le_one_of_le₀ (le_npMaxAbs hx) (le_of_lt h)
  have hlb : (1 : ℝ) ≤ npMaxAbs (xs.map fun x => x / npMaxAbs xs) := by
    rcases npMaxAbs_attained hne with ⟨x, hx, hmax⟩
    have hmem : x / npMaxAbs xs ∈ xs.map fun x => x / npMaxAbs xs :=
      List.mem_map.2 ⟨x, hx, rfl⟩
    have := le_npMaxAbs hmem
    rwa [abs_div, abs_of_pos h, hmax, div_self (ne_of_gt h)] at this
  exact le_antisymm hub hlb

theorem npMaxAbs_dup (xs : List ℝ) (f : ℝ → ℝ) :
    npMaxAbs2D (xs.map fun v => [f v, f v]) = npMaxAbs (xs.map f) := by
  induction xs with
  | nil => rfl
  | cons a tl ih =>
    unfold npMaxAbs2D at *
    simp only [List.map_cons, List.flatten_cons, List.cons_append,
      List.nil_append]
    rw [npMaxAbs_cons, npMaxAbs_cons, ih, npMaxAbs_cons, ← max_assoc, max_self]

theorem npMaxAbs2D_columnStack (xs : List ℝ) :
    npMaxAbs2D (columnStack xs xs) = npMaxAbs xs := by
  have h1 : columnStack xs xs = xs.map fun v => [v, v] := by
    unfold columnStack
    rw [List.zipWith_same]
  have := npMaxAbs_dup xs id
  rw [List.map_id] at this
  rw [h1]
  exact this

theorem linspace_length (a b : ℝ) (n : ℕ) : (linspace a b n).length = n := by
  unfold linspace
  by_cases h0 : n = 0
  · rw [if_pos h0, h0]; rfl
  · rw [if_neg h0]
    by_cases h1 : n = 1
    · rw [if_pos h1, h1]; rfl
    · rw [if_neg h1, List.length_map, List.length_range]

theorem exceptMapM_ok_length {α β : Type} (f : α → Except String β) :
    ∀ (l : List α) (res : List β), exceptMapM f l = .ok res →
      res.length = l.length := by
  intro l
  induction l with
  | nil => intro res h; cases h; rfl
  | cons a tl ih =>
    intro res h
    unfold exceptMapM at h
    cases hfa : f a with
    | error e => rw [hfa] at h; cases h
    | ok b =>
      rw [hfa] at h
      cases htl : exceptMapM f tl with
      | error e => rw [htl] at h; cases h
      | ok rest =>
        rw [htl] at h
        cases h
        simp [ih rest htl]

theorem exceptMapM_ok_mem {α β : Type} (f : α → Except String β) :
    ∀ (l : List α) (res : List β), exceptMapM f l = .ok res →
      ∀ b ∈ res, ∃ a ∈ l, f a = .ok b := by
  intro l
  induction l with
  | nil => intro res h; cases h; intro b hb; cases hb
  | cons a tl ih =>
    intro res h
    unfold exceptMapM at h
    cases hfa : f a with
    | error e => rw [hfa] at h; cases h
    | ok b0 =>
      rw [hfa] at h
      cases htl : exceptMapM f tl with
      | error e => rw [htl] at h; cases h
      | ok rest =>
        rw [htl] at h
        cases h
        intro b hb
        rcases List.mem_cons.1 hb with rfl | hb2
        · exact ⟨a, List.mem_cons_self a tl, hfa⟩
        · rcases ih rest htl b hb2 with ⟨a2, ha2, hfa2⟩
          exact ⟨a2, List.mem_cons_of_mem a ha2, hfa2⟩

theorem addRow_ok_length {a b res : List ℝ} (h : addRow a b = .ok res) :
    res.length = a.length := by
  unfold addRow at h
  by_cases hlen : a.length = b.length
  · rw [if_pos hlen] at h
    cases h
    rw [List.length_zipWith, hlen, min_self]
  · rw [if_neg hlen] at h
    by_cases h1 : b.length = 1
    · rw [if_pos h1] at h; cases h; simp
    · rw [if_neg h1] at h; cases h

theorem add2D_ok_shape {a b res : List (List ℝ)} (h : add2D a b = .ok res)
    (hw : ∀ r ∈ a, r.length = 2) :
    res.length = a.length ∧ ∀ r ∈ res, r.length = 2 := by
  unfold add2D at h
  by_cases hlen : a.length = b.length
  · rw [if_pos hlen] at h
    constructor
    · rw [exceptMapM_ok_length _ _ _ h, List.length_zip, hlen, min_self]
    · intro r hr
      rcases exceptMapM_ok_mem _ _ _ h r hr with ⟨pr, hpr, hadd⟩
      rw [addRow_ok_length hadd]
      exact hw pr.1 (List.of_mem_zip hpr).1
  · rw [if_neg hlen] at h; cases h

theorem padTruncate_length (target : ℕ) (s : List (List ℝ)) :
    (padTruncate target s).length = target := by
  unfold padTruncate
  by_cases h : s.length < target
  · rw [if_pos h, List.length_append, List.length_replicate]; omega
  · rw [if_neg h, List.length_take]; omega

theorem exOk_map {α β : Type} (f : α → β) (e : Except String α) :
    exOk (e.map f) = exOk e := by
  cases e <;> rfl

theorem exceptMapM_ok_of_forall {α β : Type} (f : α → Except String β) :
    ∀ l : List α, (∀ a ∈ l, exOk (f a) = true) →
      exOk (exceptMapM f l) = true := by
  intro l
  induction l with
  | nil => intro _; rfl
  | cons a tl ih =>
    intro h
    have ha := h a (List.mem_cons_self a tl)
    have htl := ih fun x hx => h x (List.mem_cons_of_mem a hx)
    unfold exceptMapM
    cases hfa : f a with
    | error e => rw [hfa] at ha; exact absurd ha (by simp [exOk])
    | ok b =>
      cases hrest : exceptMapM f tl with
      | error e => rw [hrest] at htl; exact absurd htl (by simp [exOk])
      | ok rest => rfl

theorem addRow_eq_ok {a b : List ℝ} (h : a.length = b.length) :
    addRow a b = .ok (List.zipWith (· + ·) a b) := by
  unfold addRow; rw [if_pos h]

theorem add2D_exOk {a b : List (List ℝ)} (hlen : a.length = b.length)
    (hw : ∀ pr ∈ a.zip b, pr.1.length = pr.2.length) :
    exOk (add2D a b) = true := by
  unfold add2D
  rw [if_pos hlen]
  exact exceptMapM_ok_of_forall _ _ fun pr hpr => by
    rw [addRow_eq_ok (hw pr hpr)]; rfl

theorem padTruncate_width {s : List (List ℝ)} (hw : ∀ r ∈ s, r.length = 2)
    (hh : (s.headD []).length = 2) :
    ∀ m, ∀ r ∈ padTruncate m s, r.length = 2 := by
  intro m r hr
  unfold padTruncate at hr
  by_cases h : s.length < m
  · rw [if_pos h] at hr
    rcases List.mem_append.1 hr with h1 | h1
    · exact hw r h1
    · rw [List.eq_of_mem_replicate h1, List.length_replicate, hh]
  · rw [if_neg h] at hr
    exact hw r (List.mem_of_mem_take hr)

theorem atmosLoop_cons (env : Env) (d : ℚ) (count : ℕ) (st : String)
    (rest : List String) (output : List (List ℝ)) :
    atmosLoop env d count (st :: rest) output =
      match generate_special_sound env st (some d) with
      | .error e => .error e
      | .ok sound =>
        match add2D output ((padTruncate output.length sound).map fun r =>
          r.map fun x => x * (1 / (count : ℝ))) with
        | .error e => .error e
        | .ok output2 => atmosLoop env d count rest output2 := rfl

theorem atmosLoop_cons_ok (env : Env) (d : ℚ) (count : ℕ) (st : String)
    (rest : List String) (output : List (List ℝ)) (sound : List (List ℝ))
    (h : generate_special_sound env st (some d) = .ok sound) :
    atmosLoop env d count (st :: rest) output =
      match add2D output ((padTruncate output.length sound).map fun r =>
        r.map fun x => x * (1 / (count : ℝ))) with
      | .error e => .error e
      | .ok output2 => atmosLoop env d count rest output2 := by
  rw [atmosLoop_cons, h]

theorem atmosLoop_exOk (env : Env) (d : ℚ) (count : ℕ) :
    ∀ (sounds : List String) (output : List (List ℝ)),
      (∀ st ∈ sounds, ∃ v, generate_special_sound env st (some d) = .ok v ∧
        ∀ m, ∀ r ∈ padTruncate m v, r.length = 2) →
      (∀ r ∈ output, r.length = 2) →
      exOk (atmosLoop env d count sounds output) = true := by
  intro sounds
  induction sounds with
  | nil => intro output _ _; rfl
  | cons st rest ih =>
    intro output hs hw
    rcases hs st (List.mem_cons_self st rest) with ⟨v, hv, hvw⟩
    rw [atmosLoop_cons_ok env d count st rest output v hv]
    have hpad : ∀ r ∈ (padTruncate output.length v).map
        (fun r => r.map fun x => x * (1 / (count : ℝ))), r.length = 2 := by
      intro r hr
      rcases List.mem_map.1 hr with ⟨r0, hr0, rfl⟩
      rw [List.length_map]
      exact hvw output.length r0 hr0
    have hlen : output.length = ((padTruncate output.length v).map
        (fun r => r.map fun x => x * (1 / (count : ℝ)))).length := by
      rw [List.length_map, padTruncate_length]
    have hok := add2D_exOk hlen (fun pr hpr => by
      rw [hw pr.1 (List.of_mem_zip hpr).1, hpad pr.2 (List.of_mem_zip hpr).2])
    cases hadd : add2D output ((padTruncate output.length v).map
        (fun r => r.map fun x => x * (1 / (count : ℝ)))) with
    | error e => rw [hadd] at hok; exact absurd hok (by simp [exOk])
    | ok o2 =>
      have hshape := add2D_ok_shape hadd hw
      exact ih o2 (fun x hx => hs x (List.mem_cons_of_mem st hx)) hshape.2

theorem create_atmos_mix_exOk (env : Env) (sounds : List String) (d : ℚ)
    (hn : ¬ numSamples d < 0)
    (hs : ∀ st ∈ sounds, ∃ v, generate_special_sound env st (some d) = .ok v ∧
      ∀ m, ∀ r ∈ padTruncate m v, r.length = 2) :
    exOk (create_atmos_mix env sounds d) = true := by
  unfold create_atmos_mix
  rw [if_neg hn]
  exact atmosLoop_exOk env d sounds.length sounds _ hs
    (fun r hr => by rw [List.eq_of_mem_replicate hr]; rfl)

theorem mixed_audio_atmos (env : Env) (d : ℚ) (stt : String)
    (ss : Option (List String)) (h : truthy ss = true) :
    mixed_audio env d stt ss none = create_atmos_mix env (ss.getD []) d := by
  simp only [mixed_audio, h, if_true]
  cases hA : create_atmos_mix env (ss.getD []) d <;> rfl

theorem special_sound_raw_eval (rand : ℕ → ℝ) (st : String) (dur : Option ℚ)
    (p : SoundParams) (d : ℚ) (hp : special_sounds st = some p)
    (hd : resolveDuration dur p.duration = d) (hn : ¬ numSamples d < 0) :
    special_sound_raw rand st dur =
      .ok (special_sound_body rand st p
        (linspace 0 (d : ℝ) (numSamples d).toNat) (d : ℝ)) := by
  simp only [special_sound_raw, hp, hd]
  rw [if_neg hn]

theorem flatten_map (f : ℝ → ℝ) (m : List (List ℝ)) :
    (m.map fun r => r.map f).flatten = m.flatten.map f := by
  induction m with
  | nil => rfl
  | cons r tl ih => simp only [List.map_cons, List.flatten_cons,
      List.map_append, ih]

theorem npMaxAbs2D_finalNormalize (m : List (List ℝ))
    (h : 0 < npMaxAbs2D m) : npMaxAbs2D (finalNormalize m) = 1 := by
  unfold finalNormalize
  unfold npMaxAbs2D
  rw [flatten_map]
  exact npMaxAbs_map_div h

theorem finalNormalize_of_max_one (m : List (List ℝ))
    (h : npMaxAbs2D m = 1) : finalNormalize m = m := by
  unfold finalNormalize
  rw [h]
  simp

theorem sin_pi_frac_pos (q : ℝ) (h0 : 0 < q) (h1 : q < 1) :
    0 < Real.sin (Real.pi * q) := by
  apply Real.sin_pos_of_pos_of_lt_pi
  · exact mul_pos Real.pi_pos h0
  · calc Real.pi * q < Real.pi * 1 := mul_lt_mul_of_pos_left h1 Real.pi_pos
    _ = Real.pi := mul_one _

theorem mixed_audio_tone (env : Env) (d : ℚ) (stt : String) (band : ℝ × ℝ)
    (hb : brainwave_states stt = some band) (hn : ¬ numSamples d < 0) :
    mixed_audio env d stt none none =
      .ok (columnStack
        ((linspace 0 (d : ℝ) (numSamples d).toNat).map fun ti =>
          Real.sin (2 * Real.pi * ((band.1 + band.2) / 2) * ti))
        ((linspace 0 (d : ℝ) (numSamples d).toNat).map fun ti =>
          Real.sin (2 * Real.pi * ((band.1 + band.2) / 2) * ti))) := by
  simp only [mixed_audio, truthy, hb]
  rw [if_neg hn]
  rfl

theorem linspace_two (c : ℝ) : linspace 0 c 2 = [0, c] := by
  simp only [linspace]
  norm_num [List.range_succ]

theorem linspace_mem (a b : ℝ) (n k : ℕ) (hk : k < n) (h2 : 2 ≤ n) :
    a + (b - a) * (k : ℝ) / ((n : ℝ) - 1) ∈ linspace a b n := by
  unfold linspace
  rw [if_neg (by omega), if_neg (by omega)]
  exact List.mem_map.2 ⟨k, List.mem_range.2 hk, rfl⟩

theorem finalNormalize_columnStack (x : List ℝ) :
    finalNormalize (columnStack x x) =
      x.map fun v => [v / npMaxAbs x, v / npMaxAbs x] := by
  unfold finalNormalize
  rw [npMaxAbs2D_columnStack]
  unfold columnStack
  rw [List.zipWith_same, List.map_map]
  rfl

theorem numSamples_one_frame : numSamples (1 / 44100) = 1 := by
  norm_num [numSamples, pyInt, sample_rate]

theorem numSamples_two_frames : numSamples (2 / 44100) = 2 := by
  norm_num [numSamples, pyInt, sample_rate]

theorem numSamples_ten : numSamples 10 = 441000 := by
  norm_num [numSamples, pyInt, sample_rate]

theorem spatialStub_exOk : exOk spatialStub = true := rfl

theorem spatialStub_widths :
    spatialStub.map (fun m => m.map List.length) = .ok [2, 2, 2] := rfl

theorem spatialStub_head :
    spatialStub.map (fun m => (m.headD []).length) = .ok 2 := rfl

theorem spatialStub_shape :
    ∃ v, spatialStub = .ok v ∧ ∀ m, ∀ r ∈ padTruncate m v, r.length = 2 := by
  cases hs : spatialStub with
  | error e =>
    have h := spatialStub_exOk
    rw [hs] at h
    exact absurd h (by simp [exOk])
  | ok v =>
    refine ⟨v, rfl, ?_⟩
    have hw := spatialStub_widths
    have hh := spatialStub_head
    rw [hs] at hw hh
    simp only [Except.map] at hw hh
    have hw2 : ∀ r ∈ v, r.length = 2 := by
      intro r hr
      have hmem : r.length ∈ v.map List.length := List.mem_map_of_mem _ hr
      rw [Except.ok.inj hw] at hmem
      simpa using hmem
    exact padTruncate_width hw2 (Except.ok.inj hh)

theorem gss_crystal_tiny :
    generate_special_sound env23 "crystal_bowls" (some (1 / 44100)) =
      spatialStub := by
  have hraw := special_sound_raw_eval rand0 "crystal_bowls" (some (1 / 44100))
    ⟨[396, 417, 528, 639, 741, 852], 0, [], 3, (2.5, 2.5, 1.5)⟩ (1 / 44100) rfl
    (by norm_num [resolveDuration]) (by rw [numSamples_one_frame]; norm_num)
  simp only [generate_special_sound, special_sounds, special_sound_normalized,
    env23, hraw, Except.map, if_true]
  rfl

theorem atmos_crystal_tiny_exOk :
    exOk (create_atmos_mix env23 ["crystal_bowls"] (1 / 44100)) = true := by
  rcases spatialStub_shape with ⟨v, hv, hvw⟩
  exact create_atmos_mix_exOk env23 ["crystal_bowls"] (1 / 44100)
    (by rw [numSamples_one_frame]; norm_num)
    (fun stx hst => by
      rcases List.mem_singleton.1 hst with rfl
      exact ⟨v, by rw [gss_crystal_tiny, hv], hvw⟩)

theorem atmosLoop_ok_shape (env : Env) (d : ℚ) (count : ℕ) :
    ∀ (sounds : List String) (output res : List (List ℝ)),
      atmosLoop env d count sounds output = .ok res →
      (∀ r ∈ output, r.length = 2) →
      res.length = output.length ∧ ∀ r ∈ res, r.length = 2 := by
  intro sounds
  induction sounds with
  | nil =>
    intro output res h hw
    cases h
    exact ⟨rfl, hw⟩
  | cons st rest ih =>
    intro output res h hw
    cases hg : generate_special_sound env st (some d) with
    | error e =>
      rw [atmosLoop_cons, hg] at h
      cases h
    | ok sound =>
      rw [atmosLoop_cons_ok env d count st rest output sound hg] at h
      cases hadd : add2D output ((padTruncate output.length sound).map fun r =>
          r.map fun x => x * (1 / (count : ℝ))) with
      | error e => rw [hadd] at h; cases h
      | ok o2 =>
        rw [hadd] at h
        have hshape := add2D_ok_shape hadd hw
        have hres := ih o2 res h hshape.2
        exact ⟨hres.1.trans hshape.1, hres.2⟩

/-! ## Claims -/

/-- C1: the claim says the movement distortion iterates over every
sample index of the rendered output and rotates each sample's channel
vector.  In the source, `_apply_movement` receives the simulation
output *before* the transpose to sample-major layout, so its loop runs
over the microphone rows (2 of them) and hands each full length-N
channel row to a 3-D rotation, which fails whenever the rendered
output is not exactly 3 samples long: here a 2-microphone, 5-sample
rendering makes `create_spatial_effect` with a circular movement fail
instead of rotating 5 per-sample vectors. -/
theorem c1_movement_rotation_fails :
    exOk (create_spatial_effect sim25 (.one [0]) (2.5, 2.5, 1.5)
      (some ⟨some "circular", some 0.2⟩)) = false := rfl

/-- C3: the claim says the temporary staging file is deleted on all
exit paths of `generate_voice_guidance`.  The source opens it with
`NamedTemporaryFile(delete=False)` and never unlinks it, so after the
call the file still exists — both when the external engine succeeds
and when it fails. -/
theorem c3_temp_file_not_deleted :
    (generate_voice_guidance ttsOkStub "hello" ⟨[]⟩ "stage_a.mp3").2.tempFiles
      = ["stage_a.mp3"] ∧
    (generate_voice_guidance ttsFailStub "hello" ⟨[]⟩ "stage_b.mp3").2.tempFiles
      = ["stage_b.mp3"] := ⟨rfl, rfl⟩

/-- C10: an empty `special_sounds` list is falsy in Python, so
`create_guided_meditation` takes the fallback-tone branch (the
atmos-mix call is never reached) and returns exactly the result of the
call with `special_sounds=None`, for every environment, duration,
target state and script. -/
theorem c10_empty_special_sounds (env : Env) (duration : ℚ)
    (target_state : String) (cs : Option String) :
    truthy (some []) = false ∧
    create_guided_meditation env duration target_state (some []) cs =
      create_guided_meditation env duration target_state none cs :=
  ⟨rfl, rfl⟩

/-- C2 (amended): an unknown brainwave-band identifier makes
`create_guided_meditation` fail with a `KeyError` naming the
identifier whenever `special_sounds` is falsy (None or empty) and the
sample count `int(sample_rate * duration)` is non-negative (for a
negative count the `np.linspace` on the line before the lookup raises
a sample-count error first); when a non-empty `special_sounds` list is
supplied the dictionary lookup never runs, so no such failure
occurs. -/
theorem c2_unknown_state_fails (env : Env) (duration : ℚ)
    (target_state : String) (ss : Option (List String)) (cs : Option String)
    (h1 : brainwave_states target_state = none) (h2 : truthy ss = false)
    (hn : ¬ numSamples duration < 0) :
    create_guided_meditation env duration target_state ss cs =
      .error ("KeyError: " ++ target_state) := by
  unfold create_guided_meditation mixed_audio
  rw [h2, if_neg hn, h1]
  rfl

theorem c2_unknown_state_fails_witness :
    brainwave_states "focus" = none ∧
    truthy (none : Option (List String)) = false ∧
    ¬ numSamples 1 < 0 ∧
    create_guided_meditation env23 1 "focus" none none =
      .error ("KeyError: " ++ "focus") := by
  have hn : ¬ numSamples 1 < 0 := by norm_num [numSamples, pyInt, sample_rate]
  exact ⟨rfl, rfl, hn,
    c2_unknown_state_fails env23 1 "focus" none none rfl rfl hn⟩

/-- C2 (counterexample): with a non-empty `special_sounds` list the
call with an unknown brainwave band does not fail at all (here it
returns a rendered mix normally), refuting the claim that it fails
with an error naming the identifier regardless of the other
arguments. -/
theorem c2_counterexample_lookup_skipped :
    brainwave_states "focus" = none ∧
    exOk (create_guided_meditation env23 (1 / 44100) "focus"
      (some ["crystal_bowls"]) none) = true := by
  refine ⟨rfl, ?_⟩
  unfold create_guided_meditation
  rw [exOk_map,
    mixed_audio_atmos env23 (1 / 44100) "focus" (some ["crystal_bowls"]) rfl]
  exact atmos_crystal_tiny_exOk

/-- C5: whenever `create_atmos_mix` returns a mix, the mix has exactly
`int(duration * 44100)` sample frames of two channels each, however
many sound types were requested: each rendered sound is zero-padded or
truncated to the target length before being accumulated. -/
theorem c5_atmos_mix_length (env : Env) (sounds : List String) (duration : ℚ)
    (out : List (List ℝ))
    (hout : create_atmos_mix env sounds duration = .ok out) :
    (out.length : ℤ) = numSamples duration ∧ ∀ r ∈ out, r.length = 2 := by
  unfold create_atmos_mix at hout
  by_cases hneg : numSamples duration < 0
  · rw [if_pos hneg] at hout; cases hout
  · rw [if_neg hneg] at hout
    have hshape := atmosLoop_ok_shape env duration sounds.length sounds _ out hout
      (fun r hr => by rw [List.eq_of_mem_replicate hr]; rfl)
    refine ⟨?_, hshape.2⟩
    rw [hshape.1, List.length_replicate, Int.toNat_of_nonneg (not_lt.1 hneg)]

theorem c5_atmos_mix_length_witness :
    (create_atmos_mix env23 ["crystal_bowls"] (1 / 44100)).map List.length =
      .ok 1 := by
  have hok := atmos_crystal_tiny_exOk
  cases hmix : create_atmos_mix env23 ["crystal_bowls"] (1 / 44100) with
  | error e => rw [hmix] at hok; exact absurd hok (by simp [exOk])
  | ok out =>
    have h := c5_atmos_mix_length env23 ["crystal_bowls"] (1 / 44100) out hmix
    have h1 : (out.length : ℤ) = 1 := by rw [h.1, numSamples_one_frame]
    have h2 : out.length = 1 := by exact_mod_cast h1
    simp [Except.map, h2]

/-- C9 (counterexample): the decoded buffer `[-32768]` — explicitly
covered by the claim — rescales to `-32768/32767 < -1`, so the output
sample does not lie in `[-1, 1]`. -/
theorem c9_counterexample_min_int16 :
    (generate_voice_guidance ttsMinStub "x" ⟨[]⟩ "stage.mp3").1 =
      .ok [[((-32768 : ℤ) : ℝ) / 32767, ((-32768 : ℤ) : ℝ) / 32767]] ∧
    ¬ (-1 ≤ ((-32768 : ℤ) : ℝ) / 32767) := by
  refine ⟨rfl, ?_⟩
  intro hle
  have hlt : ((-32768 : ℤ) : ℝ) / 32767 < -1 := by norm_num
  linarith

/-- C9 (amended): every rescaled voice sample lies in
`[-32768/32767, 1]`; samples other than the minimum int16 value land
in `[-1, 1]`, while `-32768` rescales to `-32768/32767`, slightly
below `-1`, because the divisor is the int16 maximum 32767. -/
theorem c9_rescaled_range (tts : String → Except String (List ℤ))
    (script : String) (fs : FS) (tmpName : String) (pcm : List ℤ)
    (out : List (List ℝ)) (hp : tts script = .ok pcm)
    (hrange : ∀ x ∈ pcm, -32768 ≤ x ∧ x ≤ 32767)
    (hout : (generate_voice_guidance tts script fs tmpName).1 = .ok out) :
    ∀ r ∈ out, ∀ v ∈ r, (-32768 : ℝ) / 32767 ≤ v ∧ v ≤ 1 := by
  simp only [generate_voice_guidance, hp] at hout
  intro r hr v hv
  rw [← Except.ok.inj hout] at hr
  rcases List.mem_map.1 hr with ⟨w, hw, rfl⟩
  rcases List.mem_map.1 hw with ⟨x, hx, rfl⟩
  have hb := hrange x hx
  have hx1 : (-32768 : ℝ) ≤ (x : ℝ) := by exact_mod_cast hb.1
  have hx2 : (x : ℝ) ≤ 32767 := by exact_mod_cast hb.2
  have hv2 : v = (x : ℝ) / 32767 := by
    rcases List.mem_cons.1 hv with rfl | hv3
    · rfl
    · rcases List.mem_cons.1 hv3 with rfl | hv4
      · rfl
      · cases hv4
  rw [hv2]
  constructor
  · exact div_le_div_of_nonneg_right hx1 (by norm_num) |>.trans (le_refl _)
  · calc (x : ℝ) / 32767 ≤ 32767 / 32767 :=
        div_le_div_of_nonneg_right hx2 (by norm_num) |>.trans (le_refl _)
    _ = 1 := by norm_num

theorem c9_rescaled_range_witness :
    (∀ x ∈ ([-32768, 100] : List ℤ), -32768 ≤ x ∧ x ≤ 32767) ∧
    (∀ r ∈ [[((-32768 : ℤ) : ℝ) / 32767, ((-32768 : ℤ) : ℝ) / 32767],
            [((100 : ℤ) : ℝ) / 32767, ((100 : ℤ) : ℝ) / 32767]],
      ∀ v ∈ r, (-32768 : ℝ) / 32767 ≤ v ∧ v ≤ 1) :=
  ⟨by decide, c9_rescaled_range ttsRangeStub "x" ⟨[]⟩ "stage.mp3"
    [-32768, 100] _ rfl (by decide) rfl⟩

/-- C7: peak normalization is idempotent on a non-silent buffer:
`create_guided_meditation` returns exactly the normalized mixed
buffer, the normalized buffer has maximum absolute sample 1, and
normalizing it again changes nothing. -/
theorem c7_normalization_idempotent (m : List (List ℝ))
    (hpos : 0 < npMaxAbs2D m) (env : Env) (duration : ℚ)
    (target_state : String) (ss : Option (List String)) (cs : Option String)
    (hm : mixed_audio env duration target_state ss cs = .ok m) :
    create_guided_meditation env duration target_state ss cs =
      .ok (finalNormalize m) ∧
    npMaxAbs2D (finalNormalize m) = 1 ∧
    finalNormalize (finalNormalize m) = finalNormalize m := by
  have h1 : npMaxAbs2D (finalNormalize m) = 1 := npMaxAbs2D_finalNormalize m hpos
  refine ⟨?_, h1, finalNormalize_of_max_one _ h1⟩
  unfold create_guided_meditation
  rw [hm]
  rfl

theorem c7_normalization_idempotent_witness :
    0 < npMaxAbs2D (columnStack c7tone c7tone) ∧
    create_guided_meditation env23 (2 / 44100) "alpha" none none =
      .ok (finalNormalize (columnStack c7tone c7tone)) ∧
    npMaxAbs2D (finalNormalize (columnStack c7tone c7tone)) = 1 ∧
    finalNormalize (finalNormalize (columnStack c7tone c7tone)) =
      finalNormalize (columnStack c7tone c7tone) := by
  have hm : mixed_audio env23 (2 / 44100) "alpha" none none =
      .ok (columnStack c7tone c7tone) := by
    have h := mixed_audio_tone env23 (2 / 44100) "alpha" (8, 14) rfl
      (by rw [numSamples_two_frames]; norm_num)
    rw [numSamples_two_frames] at h
    exact h
  have harg : (0 : ℝ) + (((2 / 44100 : ℚ) : ℝ) - 0) * ((1 : ℕ) : ℝ) /
      (((2 : ℕ) : ℝ) - 1) = 1 / 22050 := by
    push_cast
    norm_num
  have hmem : Real.sin (2 * Real.pi * (((8 : ℝ) + 14) / 2) * (1 / 22050)) ∈
      c7tone := by
    unfold c7tone
    refine List.mem_map.2 ⟨(0 : ℝ) + (((2 / 44100 : ℚ) : ℝ) - 0) *
      ((1 : ℕ) : ℝ) / (((2 : ℕ) : ℝ) - 1), ?_, by rw [harg]⟩
    unfold linspace
    norm_num [List.range_succ]
  have hsin : 0 < Real.sin (2 * Real.pi * (((8 : ℝ) + 14) / 2) * (1 / 22050)) := by
    have he : 2 * Real.pi * (((8 : ℝ) + 14) / 2) * (1 / 22050) =
        Real.pi * (11 / 11025) := by ring
    rw [he]
    exact sin_pi_frac_pos _ (by norm_num) (by norm_num)
  have hpos : 0 < npMaxAbs2D (columnStack c7tone c7tone) := by
    rw [npMaxAbs2D_columnStack]
    calc (0 : ℝ) < Real.sin (2 * Real.pi * (((8 : ℝ) + 14) / 2) * (1 / 22050)) :=
        hsin
    _ ≤ |Real.sin (2 * Real.pi * (((8 : ℝ) + 14) / 2) * (1 / 22050))| :=
        le_abs_self _
    _ ≤ npMaxAbs c7tone := le_npMaxAbs hmem
  have h := c7_normalization_idempotent (columnStack c7tone c7tone) hpos env23
    (2 / 44100) "alpha" none none hm
  exact ⟨hpos, h.1, h.2.1, h.2.2⟩

/-- C8: when the buffer entering the final normalization is all-zero,
no error is raised — `create_guided_meditation` still returns
normally — while the normalizing divisor `np.max(np.abs(mixed_audio))`
is 0, so the unguarded division is a division by zero and (in IEEE
arithmetic) the returned samples are non-finite, which the real-valued
embedding records as `¬ normalizationFinite`. -/
theorem c8_silent_division (env : Env) (duration : ℚ)
    (target_state : String) (ss : Option (List String)) (cs : Option String)
    (m : List (List ℝ))
    (hm : mixed_audio env duration target_state ss cs = .ok m)
    (hz : ∀ r ∈ m, ∀ x ∈ r, x = (0 : ℝ)) :
    create_guided_meditation env duration target_state ss cs =
      .ok (finalNormalize m) ∧
    npMaxAbs2D m = 0 ∧ ¬ normalizationFinite m := by
  have h0 : npMaxAbs2D m = 0 := by
    apply npMaxAbs_eq_zero
    intro x hx
    rcases List.mem_flatten.1 hx with ⟨r, hr, hxr⟩
    exact hz r hr x hxr
  refine ⟨?_, h0, fun hne => hne h0⟩
  unfold create_guided_meditation
  rw [hm]
  rfl

theorem c8_silent_division_witness :
    create_guided_meditation env23 (1 / 44100) "alpha" none none =
      .ok (finalNormalize [[(0 : ℝ), 0]]) ∧
    npMaxAbs2D [[(0 : ℝ), 0]] = 0 ∧
    ¬ normalizationFinite [[(0 : ℝ), 0]] := by
  have hm : mixed_audio env23 (1 / 44100) "alpha" none none =
      .ok [[(0 : ℝ), 0]] := by
    have h := mixed_audio_tone env23 (1 / 44100) "alpha" (8, 14) rfl
      (by rw [numSamples_one_frame]; norm_num)
    rw [numSamples_one_frame] at h
    simpa [linspace, columnStack] using h
  exact c8_silent_division env23 (1 / 44100) "alpha" none none
    [[(0 : ℝ), 0]] hm (by simp)

/-- C6 (counterexample): at the positive duration `1/44100` the
crystal-bowls synthesis grid is the single sample `t = 0`, where every
sine term vanishes, so the buffer entering the normalization line is
silent and the division is `0/0`: the waveform immediately before
spatial rendering does not have peak 1 (IEEE arithmetic yields NaN;
the real-valued embedding yields 0). -/
theorem c6_counterexample_silent_normalization :
    (special_sound_normalized rand0 "crystal_bowls" (some (1 / 44100))).map
      npMaxAbs ≠ .ok 1 := by
  have hraw := special_sound_raw_eval rand0 "crystal_bowls" (some (1 / 44100))
    ⟨[396, 417, 528, 639, 741, 852], 0, [], 3, (2.5, 2.5, 1.5)⟩ (1 / 44100) rfl
    (by norm_num [resolveDuration]) (by rw [numSamples_one_frame]; norm_num)
  rw [numSamples_one_frame] at hraw
  have hbody : special_sound_body rand0 "crystal_bowls"
      ⟨[396, 417, 528, 639, 741, 852], 0, [], 3, (2.5, 2.5, 1.5)⟩
      (linspace 0 ((1 / 44100 : ℚ) : ℝ) (Int.toNat 1)) ((1 / 44100 : ℚ) : ℝ) =
      [0] := by
    simp [special_sound_body, linspace, Real.sin_zero]
  rw [hbody] at hraw
  unfold special_sound_normalized
  rw [hraw]
  simp [Except.map, npMaxAbs]

/-- C6 (amended): for every supported sound identifier and duration,
whenever the synthesized buffer entering the normalization line is
non-silent, the normalized waveform handed to the spatial renderer has
maximum absolute sample exactly 1 (it is divided by its own maximum);
for durations whose synthesis buffer is empty or all-zero the divisor
is 0 and the invariant fails. -/
theorem c6_normalized_peak (rand : ℕ → ℝ) (sound_type : String)
    (dur : Option ℚ) (raw : List ℝ)
    (hraw : special_sound_raw rand sound_type dur = .ok raw)
    (hpos : 0 < npMaxAbs raw) :
    (special_sound_normalized rand sound_type dur).map npMaxAbs = .ok 1 := by
  unfold special_sound_normalized
  rw [hraw]
  simp only [Except.map]
  rw [npMaxAbs_map_div hpos]

theorem c6_normalized_peak_witness :
    (special_sound_normalized rand0 "om_chant" (some (2 / 44100))).map
      npMaxAbs = .ok 1 := by
  have hc : ((2 / 44100 : ℚ) : ℝ) = 1 / 22050 := by push_cast; norm_num
  have hraw := special_sound_raw_eval rand0 "om_chant" (some (2 / 44100))
    ⟨[], 136.1, [2, 3, 4], 4, (2.5, 0, 1.5)⟩ (2 / 44100) rfl
    (by norm_num [resolveDuration]) (by rw [numSamples_two_frames]; norm_num)
  rw [numSamples_two_frames, hc, show Int.toNat 2 = 2 from rfl,
    linspace_two] at hraw
  have hbody : special_sound_body rand0 "om_chant"
      ⟨[], 136.1, [2, 3, 4], 4, (2.5, 0, 1.5)⟩ [0, 1 / 22050] (1 / 22050) =
      [0, Real.sin (2 * Real.pi * 136.1 * (1 / 22050)) +
        Real.sin (2 * Real.pi * 136.1 * 2 * (1 / 22050)) * (1 / 2) +
        Real.sin (2 * Real.pi * 136.1 * 3 * (1 / 22050)) * (1 / 3) +
        Real.sin (2 * Real.pi * 136.1 * 4 * (1 / 22050)) * (1 / 4)] := by
    simp [special_sound_body, Real.sin_zero]
  rw [hbody] at hraw
  have h1 : 0 < Real.sin (2 * Real.pi * 136.1 * (1 / 22050)) := by
    rw [show (2 * Real.pi * 136.1 * (1 / 22050) : ℝ) =
      Real.pi * (1361 / 110250) from by ring]
    exact sin_pi_frac_pos _ (by norm_num) (by norm_num)
  have h2 : 0 < Real.sin (2 * Real.pi * 136.1 * 2 * (1 / 22050)) := by
    rw [show (2 * Real.pi * 136.1 * 2 * (1 / 22050) : ℝ) =
      Real.pi * (1361 * 2 / 110250) from by ring]
    exact sin_pi_frac_pos _ (by norm_num) (by norm_num)
  have h3 : 0 < Real.sin (2 * Real.pi * 136.1 * 3 * (1 / 22050)) := by
    rw [show (2 * Real.pi * 136.1 * 3 * (1 / 22050) : ℝ) =
      Real.pi * (1361 * 3 / 110250) from by ring]
    exact sin_pi_frac_pos _ (by norm_num) (by norm_num)
  have h4 : 0 < Real.sin (2 * Real.pi * 136.1 * 4 * (1 / 22050)) := by
    rw [show (2 * Real.pi * 136.1 * 4 * (1 / 22050) : ℝ) =
      Real.pi * (1361 * 4 / 110250) from by ring]
    exact sin_pi_frac_pos _ (by norm_num) (by norm_num)
  have hV : 0 < Real.sin (2 * Real.pi * 136.1 * (1 / 22050)) +
      Real.sin (2 * Real.pi * 136.1 * 2 * (1 / 22050)) * (1 / 2) +
      Real.sin (2 * Real.pi * 136.1 * 3 * (1 / 22050)) * (1 / 3) +
      Real.sin (2 * Real.pi * 136.1 * 4 * (1 / 22050)) * (1 / 4) := by
    have := mul_pos h2 (show (0 : ℝ) < 1 / 2 by norm_num)
    have := mul_pos h3 (show (0 : ℝ) < 1 / 3 by norm_num)
    have := mul_pos h4 (show (0 : ℝ) < 1 / 4 by norm_num)
    linarith
  have hpos : 0 < npMaxAbs [0, Real.sin (2 * Real.pi * 136.1 * (1 / 22050)) +
      Real.sin (2 * Real.pi * 136.1 * 2 * (1 / 22050)) * (1 / 2) +
      Real.sin (2 * Real.pi * 136.1 * 3 * (1 / 22050)) * (1 / 3) +
      Real.sin (2 * Real.pi * 136.1 * 4 * (1 / 22050)) * (1 / 4)] := by
    refine lt_of_lt_of_le hV (le_trans (le_abs_self _) (le_npMaxAbs ?_))
    simp
  exact c6_normalized_peak rand0 "om_chant" (some (2 / 44100)) _ hraw hpos

/-- C4: for every environment (in particular, whatever the spatial
renderer does — it is not invoked on this path),
`create_guided_meditation(10, 'alpha', None, None)` returns the
441000-frame stereo waveform whose two identical channels are the pure
11 Hz sine (alpha midpoint of (8, 14)) divided by its own peak, and
the result has maximum absolute sample exactly 1. -/
theorem c4_alpha_fallback (env : Env) :
    create_guided_meditation env 10 "alpha" none none = .ok alphaOut ∧
    alphaOut.length = 10 * 44100 ∧
    (∀ r ∈ alphaOut, r.length = 2) ∧
    npMaxAbs2D alphaOut = 1 := by
  have hm := mixed_audio_tone env 10 "alpha" (8, 14) rfl
    (by rw [numSamples_ten]; norm_num)
  rw [numSamples_ten] at hm
  simp only [show (((8, 14) : ℝ × ℝ).1 + ((8, 14) : ℝ × ℝ).2) / 2 = 11 from
      by norm_num,
    show ((10 : ℚ) : ℝ) = 10 from by norm_num,
    show Int.toNat 441000 = 441000 from rfl] at hm
  have hmax : 0 < npMaxAbs alphaTone := by
    have ht1 : (0 : ℝ) + (10 - 0) * ((1 : ℕ) : ℝ) / (((441000 : ℕ) : ℝ) - 1) =
        10 / 440999 := by
      push_cast
      norm_num
    have hmem : Real.sin (2 * Real.pi * 11 * (10 / 440999)) ∈ alphaTone := by
      unfold alphaTone
      refine List.mem_map.2 ⟨(0 : ℝ) + (10 - 0) * ((1 : ℕ) : ℝ) /
        (((441000 : ℕ) : ℝ) - 1), ?_, by rw [ht1]⟩
      exact linspace_mem 0 10 441000 1 (by norm_num) (by norm_num)
    have hsin : 0 < Real.sin (2 * Real.pi * 11 * (10 / 440999)) := by
      rw [show (2 * Real.pi * 11 * (10 / 440999) : ℝ) =
        Real.pi * (220 / 440999) from by ring]
      exact sin_pi_frac_pos _ (by norm_num) (by norm_num)
    exact lt_of_lt_of_le hsin (le_trans (le_abs_self _) (le_npMaxAbs hmem))
  refine ⟨?_, ?_, ?_, ?_⟩
  · unfold create_guided_meditation
    rw [hm]
    simp only [Except.map]
    rw [finalNormalize_columnStack]
    rfl
  · unfold alphaOut alphaTone
    rw [List.length_map, List.length_map, linspace_length]
  · intro r hr
    unfold alphaOut at hr
    rcases List.mem_map.1 hr with ⟨v, hv, rfl⟩
    rfl
  · unfold alphaOut
    rw [npMaxAbs_dup alphaTone (fun v => v / npMaxAbs alphaTone)]
    exact npMaxAbs_map_div hmax

end Med
